import Mathlib

/-!
Verification of the real-time audio capture and voice-activity-gated
buffering pipeline (class RealTimeAudioCapture of the repository).

Shallow-embedding conventions:
* Float64 sample values and log-domain energies are modelled as rationals.
* The transcendental step energy = Math.log10(rms + 1e-10) cannot be carried
  out in rationals, so a Frame carries its log-domain energy value alongside
  its sample list, and performVAD receives that value exactly as the rest of
  the method consumes it.  Likewise the field fallbackThreshold stores
  Math.log10(options.vadThreshold), which is exactly -3 for the default
  vadThreshold of 0.001.
* Math.floor(sortedHistory.length * 0.1) equals sortedHistory.length / 10
  (natural-number division) for every reachable history length: the history
  never grows past energyHistorySize = 20, and IEEE doubles satisfy
  floor(n * 0.1) = n / 10 for all n up to 20.
* The JavaScript sort with comparator (a, b) => a - b is ascending numeric
  sort; it is modelled by insertion sort (sortAsc below).
* Device handles (processor, analyser, microphone, audioContext, stream) are
  modelled as booleans recording whether the handle is currently held.
-/

namespace ConciseNotes

/-- A finished segment handed to the transcription consumer: a flat list of
samples, the concatenation of the buffered chunks. -/
abbrev Segment := List ℚ

/-- One fixed-size block of samples delivered by the audio callback, together
with its log-domain RMS energy, standing for Math.log10(rms + 1e-10) as
computed at the top of performVAD. -/
structure Frame where
  samples : List ℚ
  logEnergy : ℚ
deriving DecidableEq, Repr

/-- Mirror of the VADResult record returned by performVAD. -/
structure VADResult where
  isSpeech : Bool
  confidence : ℚ
  energy : ℚ
deriving DecidableEq, Repr

/-- The mutable fields of class RealTimeAudioCapture relevant to the capture
pipeline, lines 72-96 of the source. -/
structure CaptureState where
  isRecording : Bool
  audioBuffer : List (List ℚ)
  bufferSize : ℕ
  maxBufferSize : ℕ
  energyHistory : List ℚ
  energyHistorySize : ℕ
  silenceFrames : ℕ
  speechFrames : ℕ
  minSpeechFrames : ℕ
  minSilenceFrames : ℕ
  backgroundNoise : ℚ
  fallbackThreshold : ℚ
  processor : Bool
  analyser : Bool
  microphone : Bool
  audioContext : Bool
  stream : Bool
deriving DecidableEq, Repr

/-- Field initializers of RealTimeAudioCapture with the default options:
maxBufferSize = 80000, energyHistorySize = 20, minSpeechFrames = 3,
minSilenceFrames = 30, backgroundNoise = -6, and
fallbackThreshold = Math.log10(0.001) = -3.  No device resources held. -/
def initialCapture : CaptureState :=
  { isRecording := false
    audioBuffer := []
    bufferSize := 0
    maxBufferSize := 80000
    energyHistory := []
    energyHistorySize := 20
    silenceFrames := 0
    speechFrames := 0
    minSpeechFrames := 3
    minSilenceFrames := 30
    backgroundNoise := -6
    fallbackThreshold := -3
    processor := false
    analyser := false
    microphone := false
    audioContext := false
    stream := false }

/-- State after initialize() and startRecording() succeed: device resources
held and isRecording set. -/
def startedCapture : CaptureState :=
  { initialCapture with
    isRecording := true
    processor := true
    analyser := true
    microphone := true
    audioContext := true
    stream := true }

/-- Math.max on rationals, written with an explicit comparison so that the
kernel can evaluate it on concrete inputs. -/
def rmax (a b : ℚ) : ℚ := if a ≤ b then b else a

/-- Math.min on rationals, written with an explicit comparison so that the
kernel can evaluate it on concrete inputs. -/
def rmin (a b : ℚ) : ℚ := if a ≤ b then a else b

/-- Math.abs on rationals, written with an explicit comparison so that the
kernel can evaluate it on concrete inputs. -/
def rabs (x : ℚ) : ℚ := if x < 0 then -x else x

theorem rmax_eq_max (a b : ℚ) : rmax a b = max a b := by
  simp [rmax, max_def]

theorem rmin_eq_min (a b : ℚ) : rmin a b = min a b := by
  simp [rmin, min_def]

theorem rabs_eq_abs (x : ℚ) : rabs x = |x| := by
  rcases lt_or_le x 0 with h | h
  · simp [rabs, h, abs_of_neg h]
  · simp [rabs, not_lt.mpr h, abs_of_nonneg h]

/-- Insert a value into an ascending list, keeping it ascending. -/
def insertSorted (x : ℚ) : List ℚ → List ℚ
  | [] => [x]
  | y :: ys => if x ≤ y then x :: y :: ys else y :: insertSorted x ys

/-- Ascending numeric sort, modelling [...].sort with comparator
(a, b) => a - b (line 235 of the source). -/
def sortAsc (l : List ℚ) : List ℚ := l.foldr insertSorted []

/-- calculateAudioLevel, lines 215-222: mean absolute amplitude scaled to
0..100 and capped at 100. -/
def calculateAudioLevel (data : List ℚ) : ℚ :=
  let sum := (data.map rabs).sum
  let average := sum / (data.length : ℚ)
  rmin (average * 100) 100

/-- performVAD, lines 224-268, with the frame energy e already in log domain.
Returns the updated state (energyHistory and backgroundNoise are the fields
it mutates) together with the VADResult. -/
def performVAD (st : CaptureState) (e : ℚ) : CaptureState × VADResult :=
  let backgroundNoise :=
    if 10 < st.energyHistory.length then
      let sorted := sortAsc st.energyHistory
      sorted.getD (sorted.length / 10) 0
    else st.backgroundNoise
  let pushed := st.energyHistory ++ [e]
  let energyHistory :=
    if st.energyHistorySize < pushed.length then pushed.tail else pushed
  let recentFrames := energyHistory.drop (energyHistory.length - 5)
  let recentAvg := recentFrames.sum / (recentFrames.length : ℚ)
  let adaptiveThreshold := backgroundNoise + 1/2
  let threshold := rmax adaptiveThreshold st.fallbackThreshold
  let energyAboveThreshold := decide (threshold < recentAvg)
  let significantEnergyIncrease := decide (backgroundNoise + 3/10 < e)
  let isSpeech := energyAboveThreshold || significantEnergyIncrease
  let energyDiff := recentAvg - threshold
  let confidence := rmin (rmax (energyDiff / 2) 0) 1
  ({ st with energyHistory := energyHistory, backgroundNoise := backgroundNoise },
   { isSpeech := isSpeech, confidence := confidence, energy := recentAvg })

/-- sendBufferedAudio, lines 270-299: when the buffer is non-empty, emit the
concatenation of all buffered chunks in append order and clear the buffer;
otherwise do nothing. -/
def sendBufferedAudio (st : CaptureState) : CaptureState × Option Segment :=
  if st.audioBuffer = [] then (st, none)
  else
    let concatenated := st.audioBuffer.flatten
    ({ st with audioBuffer := [], bufferSize := 0 }, some concatenated)

/-- What one frame of processing reports to the outside: the audio level, the
VAD result, and the segment flushed on this frame, when one was. -/
structure FrameOutput where
  level : ℚ
  vad : VADResult
  segment : Option Segment
deriving DecidableEq, Repr

/-- processAudioChunk, lines 165-213: compute the audio level, run the VAD,
then either buffer the frame (speech) and flush on a full buffer, or count
silence and flush once the silence run reaches minSilenceFrames with a
non-empty buffer. -/
def processAudioChunk (st : CaptureState) (fr : Frame) : CaptureState × FrameOutput :=
  let audioLevel := calculateAudioLevel fr.samples
  let vadStep := performVAD st fr.logEnergy
  let st1 := vadStep.1
  let vadResult := vadStep.2
  if vadResult.isSpeech then
    let st2 := { st1 with
      audioBuffer := st1.audioBuffer ++ [fr.samples]
      bufferSize := st1.bufferSize + fr.samples.length
      speechFrames := st1.speechFrames + 1
      silenceFrames := 0 }
    if st2.maxBufferSize ≤ st2.bufferSize then
      let flushed := sendBufferedAudio st2
      (flushed.1, { level := audioLevel, vad := vadResult, segment := flushed.2 })
    else
      (st2, { level := audioLevel, vad := vadResult, segment := none })
  else
    let st2 := { st1 with
      silenceFrames := st1.silenceFrames + 1
      speechFrames := 0 }
    if st2.minSilenceFrames ≤ st2.silenceFrames ∧ 0 < st2.audioBuffer.length then
      let flushed := sendBufferedAudio st2
      (flushed.1, { level := audioLevel, vad := vadResult, segment := flushed.2 })
    else
      (st2, { level := audioLevel, vad := vadResult, segment := none })

/-- stopRecording, lines 325-336: clear the recording flag, then flush any
remaining buffered audio (one final segment when the buffer is non-empty). -/
def stopRecording (st : CaptureState) : CaptureState × Option Segment :=
  let st1 := { st with isRecording := false }
  if 0 < st1.audioBuffer.length then sendBufferedAudio st1
  else (st1, none)

/-- cleanup, lines 338-365: stopRecording first (which flushes), then release
every device resource.  Each release in the source null-checks its handle, so
the handle field ends cleared whether or not it was held. -/
def cleanup (st : CaptureState) : CaptureState × Option Segment :=
  let stopped := stopRecording st
  ({ stopped.1 with
      processor := false
      analyser := false
      microphone := false
      audioContext := false
      stream := false },
   stopped.2)

/-- Run processAudioChunk over a list of frames, collecting the flushed
segments in emission order. -/
def runFrames : CaptureState → List Frame → CaptureState × List Segment
  | st, [] => (st, [])
  | st, fr :: rest =>
    let step := processAudioChunk st fr
    let tail := runFrames step.1 rest
    (tail.1, step.2.segment.toList ++ tail.2)

/-- Run performVAD over a list of energies, keeping only the state. -/
def feedEnergies (st : CaptureState) (es : List ℚ) : CaptureState :=
  es.foldl (fun s e => (performVAD s e).1) st

/-- Every frame of the list is classified as speech at the state reached when
it is processed. -/
def allSpeechRun : CaptureState → List Frame → Bool
  | _, [] => true
  | st, fr :: rest =>
    (performVAD st fr.logEnergy).2.isSpeech &&
      allSpeechRun (processAudioChunk st fr).1 rest

/-! Formulas written from the specification text, to be compared with what
performVAD computes. -/

/-- Spec 4.2: push the frame energy into the history, evicting the oldest
value once the capacity is exceeded. -/
def pushEvict (hist : List ℚ) (e : ℚ) (cap : ℕ) : List ℚ :=
  let pushed := hist ++ [e]
  if cap < pushed.length then pushed.tail else pushed

/-- Spec 4.2: the short trailing average over the last 5 history values. -/
def last5Avg (hist : List ℚ) : ℚ :=
  let recent := hist.drop (hist.length - 5)
  recent.sum / (recent.length : ℚ)

/-- Spec 4.3: sort a snapshot of the history and take the 10th-percentile
value. -/
def tenthPercentile (hist : List ℚ) : ℚ :=
  let sorted := sortAsc hist
  sorted.getD (sorted.length / 10) 0

/-- Spec 4.3: recompute the background noise estimate whenever the history
length exceeds 10 frames, otherwise leave it unchanged. -/
def updatedNoise (hist : List ℚ) (bg : ℚ) : ℚ :=
  if 10 < hist.length then tenthPercentile hist else bg

/-- Spec 4.3: threshold is the maximum of the adaptive threshold
(backgroundNoiseEstimate + 0.5) and the fallback threshold. -/
def combinedThreshold (bg fallback : ℚ) : ℚ := max (bg + 1/2) fallback

/-- Invariant: the running sample count equals the total length of the
buffered chunks. -/
def BufferInv (st : CaptureState) : Prop :=
  st.bufferSize = (st.audioBuffer.map List.length).sum

/-! Concrete frames and states used by counterexamples and witnesses.
A frame of constant sample value 1 has rms 1, hence log energy
log10(1 + 1e-10) which is 0 to within 4.4e-11; a frame of zeros has rms 0 and
log energy log10(1e-10) = -10 exactly. -/

/-- A loud frame: two samples of amplitude 1, log-domain energy 0. -/
def fSp : Frame := { samples := [1, 1], logEnergy := 0 }

/-- A silent frame: two zero samples, log-domain energy -10. -/
def fSil : Frame := { samples := [0, 0], logEnergy := -10 }

/-- One loud frame followed by exactly minSilenceFrames = 30 silent frames. -/
def c1Input : List Frame := fSp :: List.replicate 30 fSil

/-- The session state after the loud frame and 29 of the 30 silent frames:
the buffer holds the loud frame and the silence counter stands at 29. -/
def c1WitnessState : CaptureState :=
  (runFrames startedCapture (fSp :: List.replicate 29 fSil)).1

/-- A recording session holding two buffered chunks. -/
def c3NonEmptyState : CaptureState :=
  { startedCapture with audioBuffer := [[1, 2], [3]], bufferSize := 3 }

/-- A freshly started session whose forced-flush cap is 4 samples, so that
two frames of fSp fill the buffer exactly. -/
def c5WitnessState : CaptureState :=
  { startedCapture with maxBufferSize := 4 }

/-- A session whose energy history holds one value, 0, so that the trailing
average after one more frame differs from that frame's raw energy. -/
def c10DemoState : CaptureState :=
  { startedCapture with energyHistory := [0] }

/-! Embedding of the frame callback with exceptions.  JavaScript calls that
may throw are modelled in the Except monad; neither the onaudioprocess
handler (lines 150-155) nor processAudioChunk contains a try/catch, and
neither ever invokes this.onError, so the embedding has no handler either:
an error raised by a callback propagates to the caller.  An absent optional
callback corresponds to one returning Except.ok. -/

/-- The optional per-frame callbacks reachable from processAudioChunk, each
allowed to throw. -/
structure CaptureCallbacks where
  onAudioLevel : ℚ → Except String Unit
  onVAD : VADResult → Except String Unit
  onAudioChunk : Segment → Except String Unit

/-- sendBufferedAudio with a throwing onAudioChunk callback; the callback is
invoked before the buffer is cleared, as in lines 294-298. -/
def sendBufferedAudioE (cb : CaptureCallbacks) (st : CaptureState) :
    Except String (CaptureState × Option Segment) :=
  if st.audioBuffer = [] then Except.ok (st, none)
  else do
    let concatenated := st.audioBuffer.flatten
    cb.onAudioChunk concatenated
    Except.ok ({ st with audioBuffer := [], bufferSize := 0 }, some concatenated)

/-- processAudioChunk, lines 165-213, with the callback invocations made
explicit in the Except monad.  The source wraps none of these calls in a
try/catch, so every statement sequences with plain bind. -/
def processAudioChunkE (cb : CaptureCallbacks) (st : CaptureState) (fr : Frame) :
    Except String (CaptureState × Option Segment) := do
  cb.onAudioLevel (calculateAudioLevel fr.samples)
  let vadStep := performVAD st fr.logEnergy
  cb.onVAD vadStep.2
  let st1 := vadStep.1
  if vadStep.2.isSpeech then
    let st2 := { st1 with
      audioBuffer := st1.audioBuffer ++ [fr.samples]
      bufferSize := st1.bufferSize + fr.samples.length
      speechFrames := st1.speechFrames + 1
      silenceFrames := 0 }
    if st2.maxBufferSize ≤ st2.bufferSize then sendBufferedAudioE cb st2
    else Except.ok (st2, none)
  else
    let st2 := { st1 with
      silenceFrames := st1.silenceFrames + 1
      speechFrames := 0 }
    if st2.minSilenceFrames ≤ st2.silenceFrames ∧ 0 < st2.audioBuffer.length then
      sendBufferedAudioE cb st2
    else Except.ok (st2, none)

/-- The onaudioprocess handler, lines 150-155: return early when not
recording, otherwise run processAudioChunk with no exception handler. -/
def onaudioprocessE (cb : CaptureCallbacks) (st : CaptureState) (fr : Frame) :
    Except String (CaptureState × Option Segment) :=
  if !st.isRecording then Except.ok (st, none)
  else processAudioChunkE cb st fr

/-- Callbacks that never throw, the behaviour of absent optional callbacks. -/
def okCallbacks : CaptureCallbacks :=
  { onAudioLevel := fun _ => Except.ok ()
    onVAD := fun _ => Except.ok ()
    onAudioChunk := fun _ => Except.ok () }

/-- Callbacks whose onVAD listener throws. -/
def throwingVAD : CaptureCallbacks :=
  { okCallbacks with onVAD := fun _ => Except.error "boom" }

/-- Callbacks whose onAudioLevel listener throws. -/
def throwingLevel : CaptureCallbacks :=
  { okCallbacks with onAudioLevel := fun _ => Except.error "level boom" }

/-! Helper lemmas shared by the claim theorems. -/

@[simp]
theorem performVAD_audioBuffer (st : CaptureState) (e : ℚ) :
    (performVAD st e).1.audioBuffer = st.audioBuffer := rfl

@[simp]
theorem performVAD_bufferSize (st : CaptureState) (e : ℚ) :
    (performVAD st e).1.bufferSize = st.bufferSize := rfl

@[simp]
theorem performVAD_maxBufferSize (st : CaptureState) (e : ℚ) :
    (performVAD st e).1.maxBufferSize = st.maxBufferSize := rfl

@[simp]
theorem performVAD_silenceFrames (st : CaptureState) (e : ℚ) :
    (performVAD st e).1.silenceFrames = st.silenceFrames := rfl

@[simp]
theorem performVAD_speechFrames (st : CaptureState) (e : ℚ) :
    (performVAD st e).1.speechFrames = st.speechFrames := rfl

@[simp]
theorem performVAD_minSilenceFrames (st : CaptureState) (e : ℚ) :
    (performVAD st e).1.minSilenceFrames = st.minSilenceFrames := rfl

@[simp]
theorem performVAD_isRecording (st : CaptureState) (e : ℚ) :
    (performVAD st e).1.isRecording = st.isRecording := rfl

theorem performVAD_backgroundNoise (st : CaptureState) (e : ℚ) :
    (performVAD st e).1.backgroundNoise = updatedNoise st.energyHistory st.backgroundNoise := rfl

theorem performVAD_energyHistory (st : CaptureState) (e : ℚ) :
    (performVAD st e).1.energyHistory = pushEvict st.energyHistory e st.energyHistorySize := rfl

theorem performVAD_energyHistorySize (st : CaptureState) (e : ℚ) :
    (performVAD st e).1.energyHistorySize = st.energyHistorySize := rfl

theorem performVAD_energy (st : CaptureState) (e : ℚ) :
    (performVAD st e).2.energy = last5Avg (pushEvict st.energyHistory e st.energyHistorySize) := rfl

theorem performVAD_isSpeech (st : CaptureState) (e : ℚ) :
    (performVAD st e).2.isSpeech =
      (decide (rmax (updatedNoise st.energyHistory st.backgroundNoise + 1/2) st.fallbackThreshold
          < last5Avg (pushEvict st.energyHistory e st.energyHistorySize)) ||
        decide (updatedNoise st.energyHistory st.backgroundNoise + 3/10 < e)) := rfl

theorem performVAD_confidence (st : CaptureState) (e : ℚ) :
    (performVAD st e).2.confidence =
      rmin (rmax ((last5Avg (pushEvict st.energyHistory e st.energyHistorySize) -
        rmax (updatedNoise st.energyHistory st.backgroundNoise + 1/2) st.fallbackThreshold) / 2) 0) 1 := rfl

theorem rmax_combinedThreshold (bg fallback : ℚ) :
    rmax (bg + 1/2) fallback = combinedThreshold bg fallback := by
  rw [combinedThreshold, rmax_eq_max]

/-- C4: For every frame, the VAD classification equals the spec formula:
with threshold = max(backgroundNoiseEstimate + 0.5, log10(configuredVadThreshold))
computed from the freshly updated noise estimate, the frame is speech if and
only if the 5-frame trailing average exceeds the threshold or the raw frame
energy exceeds backgroundNoiseEstimate + 0.3. -/
theorem c4_vad_classification_formula (st : CaptureState) (e : ℚ) :
    (performVAD st e).2.isSpeech = true ↔
      (last5Avg (pushEvict st.energyHistory e st.energyHistorySize) >
          combinedThreshold (updatedNoise st.energyHistory st.backgroundNoise) st.fallbackThreshold ∨
        e > updatedNoise st.energyHistory st.backgroundNoise + 3/10) := by
  rw [performVAD_isSpeech, rmax_combinedThreshold, Bool.or_eq_true, decide_eq_true_eq,
    decide_eq_true_eq]

/-- C7: For every frame and every energy input, the confidence returned by
the VAD equals clamp((recentAvg - threshold) / 2, 0, 1) and therefore lies in
the closed interval from 0 to 1. -/
theorem c7_confidence_clamped (st : CaptureState) (e : ℚ) :
    (performVAD st e).2.confidence =
      min (max ((last5Avg (pushEvict st.energyHistory e st.energyHistorySize) -
        combinedThreshold (updatedNoise st.energyHistory st.backgroundNoise) st.fallbackThreshold)
          / 2) 0) 1 ∧
    0 ≤ (performVAD st e).2.confidence ∧ (performVAD st e).2.confidence ≤ 1 := by
  have h : (performVAD st e).2.confidence =
      min (max ((last5Avg (pushEvict st.energyHistory e st.energyHistorySize) -
        combinedThreshold (updatedNoise st.energyHistory st.backgroundNoise) st.fallbackThreshold)
          / 2) 0) 1 := by
    rw [performVAD_confidence, rmax_combinedThreshold, rmin_eq_min, rmax_eq_max]
  refine ⟨h, ?_, ?_⟩
  · rw [h]
    exact le_min (le_max_right _ _) zero_le_one
  · rw [h]
    exact min_le_right _ _

/-- C10: For every frame, the energy field delivered in the VADResult is the
5-frame trailing average over the post-push history, not the raw frame
energy (witnessed at a concrete state), and the noise estimate used by the
classification is computed from the history as it stood before the push. -/
theorem c10_vad_energy_is_recent_average (st : CaptureState) (e : ℚ) :
    (performVAD st e).2.energy = last5Avg (pushEvict st.energyHistory e st.energyHistorySize) ∧
    (performVAD st e).1.backgroundNoise = updatedNoise st.energyHistory st.backgroundNoise ∧
    (performVAD st e).2.isSpeech =
      (decide (combinedThreshold (updatedNoise st.energyHistory st.backgroundNoise)
          st.fallbackThreshold <
          last5Avg (pushEvict st.energyHistory e st.energyHistorySize)) ||
        decide (updatedNoise st.energyHistory st.backgroundNoise + 3/10 < e)) ∧
    (performVAD c10DemoState (-10)).2.energy ≠ -10 := by
  refine ⟨performVAD_energy st e, performVAD_backgroundNoise st e, ?_, ?_⟩
  · rw [performVAD_isSpeech, rmax_combinedThreshold]
  · rw [performVAD_energy]
    norm_num [c10DemoState, startedCapture, initialCapture, pushEvict, last5Avg]

/-! Branch characterizations of processAudioChunk. -/

theorem processAudioChunk_speech_noflush (st : CaptureState) (fr : Frame)
    (hsp : (performVAD st fr.logEnergy).2.isSpeech = true)
    (hlt : st.bufferSize + fr.samples.length < st.maxBufferSize) :
    (processAudioChunk st fr).1.audioBuffer = st.audioBuffer ++ [fr.samples] ∧
    (processAudioChunk st fr).1.bufferSize = st.bufferSize + fr.samples.length ∧
    (processAudioChunk st fr).1.maxBufferSize = st.maxBufferSize ∧
    (processAudioChunk st fr).2.segment = none := by
  simp only [processAudioChunk, hsp, if_true, performVAD_audioBuffer, performVAD_bufferSize,
    performVAD_maxBufferSize, performVAD_speechFrames]
  rw [if_neg (not_le.mpr hlt)]
  simp

theorem processAudioChunk_speech_flush (st : CaptureState) (fr : Frame)
    (hsp : (performVAD st fr.logEnergy).2.isSpeech = true)
    (hge : st.maxBufferSize ≤ st.bufferSize + fr.samples.length) :
    (processAudioChunk st fr).1.audioBuffer = [] ∧
    (processAudioChunk st fr).1.bufferSize = 0 ∧
    (processAudioChunk st fr).1.maxBufferSize = st.maxBufferSize ∧
    (processAudioChunk st fr).2.segment = some ((st.audioBuffer ++ [fr.samples]).flatten) := by
  simp only [processAudioChunk, hsp, if_true, performVAD_audioBuffer, performVAD_bufferSize,
    performVAD_maxBufferSize, performVAD_speechFrames]
  rw [if_pos hge]
  simp [sendBufferedAudio]

theorem processAudioChunk_silence_noflush (st : CaptureState) (fr : Frame)
    (hsil : (performVAD st fr.logEnergy).2.isSpeech = false)
    (hcond : ¬ (st.minSilenceFrames ≤ st.silenceFrames + 1 ∧ 0 < st.audioBuffer.length)) :
    (processAudioChunk st fr).1.audioBuffer = st.audioBuffer ∧
    (processAudioChunk st fr).1.bufferSize = st.bufferSize ∧
    (processAudioChunk st fr).1.maxBufferSize = st.maxBufferSize ∧
    (processAudioChunk st fr).2.segment = none := by
  simp only [processAudioChunk, hsil, Bool.false_eq_true, if_false, performVAD_audioBuffer,
    performVAD_bufferSize, performVAD_maxBufferSize, performVAD_silenceFrames,
    performVAD_minSilenceFrames]
  rw [if_neg hcond]
  simp

theorem processAudioChunk_silence_flush (st : CaptureState) (fr : Frame)
    (hsil : (performVAD st fr.logEnergy).2.isSpeech = false)
    (hthr : st.minSilenceFrames ≤ st.silenceFrames + 1)
    (hne : st.audioBuffer ≠ []) :
    (processAudioChunk st fr).1.audioBuffer = [] ∧
    (processAudioChunk st fr).1.bufferSize = 0 ∧
    (processAudioChunk st fr).1.maxBufferSize = st.maxBufferSize ∧
    (processAudioChunk st fr).2.segment = some st.audioBuffer.flatten := by
  simp only [processAudioChunk, hsil, Bool.false_eq_true, if_false, performVAD_audioBuffer,
    performVAD_bufferSize, performVAD_maxBufferSize, performVAD_silenceFrames,
    performVAD_minSilenceFrames]
  rw [if_pos ⟨hthr, List.length_pos.mpr hne⟩]
  simp [sendBufferedAudio, hne]

/-! Lemmas about flush, stop and cleanup. -/

theorem sendBufferedAudio_clears (st : CaptureState) (h : BufferInv st) :
    (sendBufferedAudio st).1.bufferSize = 0 ∧ (sendBufferedAudio st).1.audioBuffer = [] := by
  by_cases hb : st.audioBuffer = []
  · refine ⟨?_, by simp [sendBufferedAudio, hb]⟩
    rw [BufferInv, hb] at h
    simpa [sendBufferedAudio, hb] using h
  · simp [sendBufferedAudio, hb]

theorem sendBufferedAudio_inv (st : CaptureState) (h : BufferInv st) :
    BufferInv (sendBufferedAudio st).1 := by
  obtain ⟨h1, h2⟩ := sendBufferedAudio_clears st h
  rw [BufferInv, h1, h2]
  simp

theorem stopRecording_snd_of_ne (st : CaptureState) (h : st.audioBuffer ≠ []) :
    (stopRecording st).2 = some st.audioBuffer.flatten := by
  simp [stopRecording, sendBufferedAudio, h, List.length_pos.mpr h]

theorem stopRecording_snd_of_empty (st : CaptureState) (h : st.audioBuffer = []) :
    (stopRecording st).2 = none := by
  simp [stopRecording, h]

theorem stopRecording_audioBuffer (st : CaptureState) :
    (stopRecording st).1.audioBuffer = [] := by
  by_cases h : st.audioBuffer = [] <;>
    simp [stopRecording, sendBufferedAudio, h, List.length_pos.mpr]

theorem stopRecording_isRecording (st : CaptureState) :
    (stopRecording st).1.isRecording = false := by
  by_cases h : st.audioBuffer = [] <;>
    simp [stopRecording, sendBufferedAudio, h, List.length_pos.mpr]

theorem stopRecording_inv (st : CaptureState) (h : BufferInv st) :
    BufferInv (stopRecording st).1 := by
  by_cases hb : st.audioBuffer = []
  · simpa [stopRecording, hb, BufferInv] using h
  · rw [stopRecording]
    rw [if_pos (by simpa using List.length_pos.mpr hb)]
    exact sendBufferedAudio_inv _ h

theorem cleanup_snd (st : CaptureState) : (cleanup st).2 = (stopRecording st).2 := rfl

theorem cleanup_of_released (s : CaptureState) (hb : s.audioBuffer = [])
    (hr : s.isRecording = false) (h1 : s.processor = false) (h2 : s.analyser = false)
    (h3 : s.microphone = false) (h4 : s.audioContext = false) (h5 : s.stream = false) :
    cleanup s = (s, none) := by
  cases s
  simp_all [cleanup, stopRecording, sendBufferedAudio]

/-- C3: Stopping a session with a non-empty buffer emits exactly one final
Segment holding all buffered chunks concatenated in append order, also along
the cleanup path where the emission happens before the device resources are
cleared; stopping with an empty buffer emits no Segment. -/
theorem c3_stop_emits_buffered_audio (st : CaptureState) :
    (st.audioBuffer ≠ [] →
      (stopRecording st).2 = some st.audioBuffer.flatten ∧
      (cleanup st).2 = some st.audioBuffer.flatten) ∧
    (st.audioBuffer = [] →
      (stopRecording st).2 = none ∧ (cleanup st).2 = none) ∧
    (cleanup st).1.processor = false ∧ (cleanup st).1.analyser = false ∧
    (cleanup st).1.microphone = false ∧ (cleanup st).1.audioContext = false ∧
    (cleanup st).1.stream = false := by
  refine ⟨fun h => ⟨stopRecording_snd_of_ne st h, ?_⟩,
    fun h => ⟨stopRecording_snd_of_empty st h, ?_⟩, rfl, rfl, rfl, rfl, rfl⟩
  · rw [cleanup_snd]
    exact stopRecording_snd_of_ne st h
  · rw [cleanup_snd]
    exact stopRecording_snd_of_empty st h

/-- C3 witness: a session with two buffered chunks emits exactly the ordered
concatenation when stopped. -/
theorem c3_stop_emits_buffered_audio_witness :
    c3NonEmptyState.audioBuffer ≠ [] ∧
    (stopRecording c3NonEmptyState).2 = some c3NonEmptyState.audioBuffer.flatten :=
  ⟨by decide, ((c3_stop_emits_buffered_audio c3NonEmptyState).1 (by decide)).1⟩

/-- C8: cleanup is idempotent, a second invocation from the released state is
a no-op emitting nothing, and every device resource field is cleared after a
cleanup from any state, including error paths. -/
theorem c8_cleanup_idempotent_releases (st : CaptureState) :
    cleanup (cleanup st).1 = ((cleanup st).1, none) ∧
    (cleanup st).1.processor = false ∧ (cleanup st).1.analyser = false ∧
    (cleanup st).1.microphone = false ∧ (cleanup st).1.audioContext = false ∧
    (cleanup st).1.stream = false := by
  refine ⟨?_, rfl, rfl, rfl, rfl, rfl⟩
  exact cleanup_of_released _ (stopRecording_audioBuffer st) (stopRecording_isRecording st)
    rfl rfl rfl rfl rfl

/-- C9: the running sample count equals the summed chunk lengths, preserved
by frame processing, flush and stop; both are zero right after a flush and at
session start. -/
theorem c9_buffer_size_invariant (st : CaptureState) (fr : Frame) (h : BufferInv st) :
    BufferInv (processAudioChunk st fr).1 ∧
    BufferInv (sendBufferedAudio st).1 ∧
    BufferInv (stopRecording st).1 ∧
    (sendBufferedAudio st).1.bufferSize = 0 ∧ (sendBufferedAudio st).1.audioBuffer = [] ∧
    initialCapture.bufferSize = 0 ∧ initialCapture.audioBuffer = [] := by
  obtain ⟨hc1, hc2⟩ := sendBufferedAudio_clears st h
  refine ⟨?_, sendBufferedAudio_inv st h, stopRecording_inv st h, hc1, hc2, rfl, rfl⟩
  rcases Bool.eq_false_or_eq_true (performVAD st fr.logEnergy).2.isSpeech with hsp | hsp
  · by_cases hful : st.maxBufferSize ≤ st.bufferSize + fr.samples.length
    · obtain ⟨hb, hs, _, _⟩ := processAudioChunk_speech_flush st fr hsp hful
      rw [BufferInv, hb, hs]
      simp
    · obtain ⟨hb, hs, _, _⟩ := processAudioChunk_speech_noflush st fr hsp (not_le.mp hful)
      rw [BufferInv, hb, hs, h]
      simp
  · by_cases hcond : st.minSilenceFrames ≤ st.silenceFrames + 1 ∧ 0 < st.audioBuffer.length
    · have hne : st.audioBuffer ≠ [] := by
        intro hnil
        rw [hnil] at hcond
        simpa using hcond.2
      obtain ⟨hb, hs, _, _⟩ := processAudioChunk_silence_flush st fr hsp hcond.1 hne
      rw [BufferInv, hb, hs]
      simp
    · obtain ⟨hb, hs, _, _⟩ := processAudioChunk_silence_noflush st fr hsp hcond
      rw [BufferInv, hb, hs]
      exact h

/-- C9 witness: the invariant at a concrete recording state with one buffered
chunk is preserved. -/
theorem c9_buffer_size_invariant_witness :
    BufferInv c3NonEmptyState ∧ BufferInv (stopRecording c3NonEmptyState).1 :=
  ⟨by unfold BufferInv; decide,
    (c9_buffer_size_invariant c3NonEmptyState fSil (by unfold BufferInv; decide)).2.2.1⟩

set_option maxRecDepth 8000 in
unseal Rat.add Rat.mul Rat.sub Rat.inv in
/-- C1 counterexample: run one speech frame (two samples of amplitude 1)
followed by 30 silence frames.  Exactly one flush occurs when the silence
counter reaches minSilenceFrames = 30, but the emitted Segment is just the
speech frame's two samples: the 30 trailing silence frames processed since
accumulation began were never buffered, so the Segment is not the
concatenation of every frame processed since accumulation began. -/
theorem c1_counterexample :
    (runFrames startedCapture c1Input).2 = [[1, 1]] ∧
    (c1Input.map Frame.samples).flatten ≠ ([1, 1] : List ℚ) := by
  decide

/-- C1 amended: while the buffer is non-empty, a silence-classified frame is
never appended to the buffer; before the silence threshold the buffer is left
exactly as it was, and at the threshold the flush emits exactly the
previously buffered (speech-classified) chunks, the trailing silence frames
excluded. -/
theorem c1_silence_frames_not_buffered (st : CaptureState) (fr : Frame)
    (hsil : (performVAD st fr.logEnergy).2.isSpeech = false)
    (hne : st.audioBuffer ≠ []) :
    (st.minSilenceFrames ≤ st.silenceFrames + 1 →
      (processAudioChunk st fr).2.segment = some st.audioBuffer.flatten ∧
      (processAudioChunk st fr).1.audioBuffer = []) ∧
    (st.silenceFrames + 1 < st.minSilenceFrames →
      (processAudioChunk st fr).2.segment = none ∧
      (processAudioChunk st fr).1.audioBuffer = st.audioBuffer) := by
  constructor
  · intro hthr
    obtain ⟨hb, _, _, hseg⟩ := processAudioChunk_silence_flush st fr hsil hthr hne
    exact ⟨hseg, hb⟩
  · intro hthr
    have hcond : ¬ (st.minSilenceFrames ≤ st.silenceFrames + 1 ∧ 0 < st.audioBuffer.length) := by
      intro hc
      exact absurd hc.1 (not_le.mpr hthr)
    obtain ⟨hb, _, _, hseg⟩ := processAudioChunk_silence_noflush st fr hsil hcond
    exact ⟨hseg, hb⟩

set_option maxRecDepth 8000 in
unseal Rat.add Rat.mul Rat.sub Rat.inv in
/-- C1 witness: at the state reached after the speech frame and 29 silence
frames, the 30th silence frame triggers the flush and the Segment is exactly
the buffered speech audio. -/
theorem c1_silence_frames_not_buffered_witness :
    (performVAD c1WitnessState fSil.logEnergy).2.isSpeech = false ∧
    c1WitnessState.audioBuffer ≠ [] ∧
    c1WitnessState.minSilenceFrames ≤ c1WitnessState.silenceFrames + 1 ∧
    (processAudioChunk c1WitnessState fSil).2.segment = some c1WitnessState.audioBuffer.flatten :=
  ⟨by decide, by decide, by decide,
    ((c1_silence_frames_not_buffered c1WitnessState fSil (by decide) (by decide)).1
      (by decide)).1⟩

/-! Run lemmas for C5. -/

theorem runFrames_append (l₁ l₂ : List Frame) : ∀ st : CaptureState,
    runFrames st (l₁ ++ l₂) =
      ((runFrames (runFrames st l₁).1 l₂).1,
        (runFrames st l₁).2 ++ (runFrames (runFrames st l₁).1 l₂).2) := by
  induction l₁ with
  | nil => intro st; simp [runFrames]
  | cons fr rest ih =>
    intro st
    simp [runFrames, ih, List.append_assoc]

theorem allSpeechRun_append (l₁ l₂ : List Frame) : ∀ st : CaptureState,
    allSpeechRun st (l₁ ++ l₂) =
      (allSpeechRun st l₁ && allSpeechRun (runFrames st l₁).1 l₂) := by
  induction l₁ with
  | nil => intro st; simp [allSpeechRun, runFrames]
  | cons fr rest ih =>
    intro st
    simp [allSpeechRun, runFrames, ih, Bool.and_assoc]

theorem flatten_length_const (l : List Frame) (c : ℕ)
    (h : ∀ fr ∈ l, fr.samples.length = c) :
    ((l.map Frame.samples).flatten).length = l.length * c := by
  induction l with
  | nil => simp
  | cons fr rest ih =>
    simp only [List.map_cons, List.flatten_cons, List.length_append, List.length_cons]
    rw [h fr (List.mem_cons_self fr rest), ih (fun g hg => h g (List.mem_cons_of_mem fr hg))]
    ring

theorem runFrames_speech_noflush (l : List Frame) (c : ℕ) : ∀ st : CaptureState,
    allSpeechRun st l = true →
    (∀ fr ∈ l, fr.samples.length = c) →
    st.bufferSize + l.length * c < st.maxBufferSize →
    (runFrames st l).2 = [] ∧
    (runFrames st l).1.audioBuffer = st.audioBuffer ++ l.map Frame.samples ∧
    (runFrames st l).1.bufferSize = st.bufferSize + l.length * c ∧
    (runFrames st l).1.maxBufferSize = st.maxBufferSize := by
  induction l with
  | nil => intro st _ _ _; simp [runFrames]
  | cons fr rest ih =>
    intro st hsp hlen hlt
    rw [allSpeechRun, Bool.and_eq_true] at hsp
    have hfr : fr.samples.length = c := hlen fr (List.mem_cons_self fr rest)
    have hexp : (fr :: rest).length * c = rest.length * c + c := by
      simp [List.length_cons, Nat.succ_mul]
    rw [hexp] at hlt
    set A := rest.length * c with hA
    have hstep : st.bufferSize + fr.samples.length < st.maxBufferSize := by
      rw [hfr]; omega
    obtain ⟨hb, hs, hm, hseg⟩ := processAudioChunk_speech_noflush st fr hsp.1 hstep
    have ih' := ih (processAudioChunk st fr).1 hsp.2
      (fun g hg => hlen g (List.mem_cons_of_mem fr hg))
      (by rw [hs, hm, hfr]; omega)
    obtain ⟨ih1, ih2, ih3, ih4⟩ := ih'
    refine ⟨?_, ?_, ?_, ?_⟩
    · simp [runFrames, hseg, ih1]
    · simp only [runFrames]
      rw [ih2, hb]
      simp [List.append_assoc]
    · simp only [runFrames]
      rw [ih3, hs, hfr, hexp]
      omega
    · simp only [runFrames]
      rw [ih4, hm]

/-- C5: an all-speech input of frames of equal positive length whose total
sample count is exactly maxBufferSize, fed into a session with an empty
buffer, produces exactly one flush, triggered on the final frame (no Segment
is emitted on any proper prefix), and the emitted Segment's sample count
equals maxBufferSize. -/
theorem c5_full_buffer_single_flush (st : CaptureState) (frames : List Frame) (c : ℕ)
    (hc : 0 < c)
    (hsp : allSpeechRun st frames = true)
    (hlen : ∀ fr ∈ frames, fr.samples.length = c)
    (hbuf : st.audioBuffer = []) (hbs : st.bufferSize = 0)
    (hcap : frames.length * c = st.maxBufferSize)
    (hpos : 0 < st.maxBufferSize) :
    (runFrames st frames).2 = [(frames.map Frame.samples).flatten] ∧
    ((frames.map Frame.samples).flatten).length = st.maxBufferSize ∧
    (runFrames st frames.dropLast).2 = [] := by
  have hne : frames ≠ [] := by
    intro h0
    rw [h0] at hcap
    simp at hcap
    omega
  obtain ⟨l, a, rfl⟩ : ∃ l a, frames = l ++ [a] := by
    rcases List.eq_nil_or_concat frames with h | h
    · exact absurd h hne
    · obtain ⟨L, b, hLb⟩ := h
      exact ⟨L, b, by rw [hLb, List.concat_eq_append]⟩
  have hlenexp : (l ++ [a]).length * c = l.length * c + c := by
    simp [Nat.succ_mul]
  rw [hlenexp] at hcap
  set A := l.length * c with hA
  have hlenl : ∀ fr ∈ l, fr.samples.length = c :=
    fun g hg => hlen g (List.mem_append_left _ hg)
  have hlena : a.samples.length = c := hlen a (List.mem_append_right _ (List.mem_singleton_self a))
  rw [allSpeechRun_append] at hsp
  rw [Bool.and_eq_true] at hsp
  have hltl : st.bufferSize + l.length * c < st.maxBufferSize := by
    rw [hbs, ← hA]; omega
  obtain ⟨r1, r2, r3, r4⟩ := runFrames_speech_noflush l c st hsp.1 hlenl hltl
  have hspa : (performVAD (runFrames st l).1 a.logEnergy).2.isSpeech = true := by
    have h2 := hsp.2
    rw [allSpeechRun, Bool.and_eq_true] at h2
    exact h2.1
  have hge : (runFrames st l).1.maxBufferSize ≤
      (runFrames st l).1.bufferSize + a.samples.length := by
    rw [r3, r4, hbs, hlena, ← hA]; omega
  obtain ⟨f1, f2, f3, f4⟩ := processAudioChunk_speech_flush (runFrames st l).1 a hspa hge
  refine ⟨?_, ?_, ?_⟩
  · rw [runFrames_append l [a] st]
    simp only [runFrames, r1]
    rw [f4, r2, hbuf]
    simp
  · rw [flatten_length_const (l ++ [a]) c hlen, hlenexp]
    exact hcap
  · rw [List.dropLast_concat]
    exact r1

set_option maxRecDepth 2000 in
unseal Rat.add Rat.mul Rat.sub Rat.inv in
/-- C5 witness: two speech frames of two samples each against a session
whose cap is 4 samples end in exactly one flush of exactly 4 samples. -/
theorem c5_full_buffer_single_flush_witness :
    allSpeechRun c5WitnessState [fSp, fSp] = true ∧
    c5WitnessState.audioBuffer = [] ∧
    [fSp, fSp].length * 2 = c5WitnessState.maxBufferSize ∧
    (runFrames c5WitnessState [fSp, fSp]).2 = [([fSp, fSp].map Frame.samples).flatten] :=
  ⟨by decide, by decide, by decide,
    (c5_full_buffer_single_flush c5WitnessState [fSp, fSp] 2 (by decide) (by decide)
      (by decide) (by decide) (by decide) (by decide) (by decide)).1⟩

/-! Lemmas for C6. -/

unseal Rat.add Rat.mul Rat.sub Rat.inv in
/-- C6 counterexample: feeding 11 frames of constant energy -4, a stream of
more than 10 frames, leaves the background noise estimate at its initial -6:
the estimate is only recomputed when the pre-push history length exceeds 10,
which first happens on the 12th frame, so the estimate does not equal the fed
constant (the 10th percentile of the history) after 11 frames. -/
theorem c6_counterexample :
    (feedEnergies initialCapture (List.replicate 11 (-4))).backgroundNoise = -6 ∧
    (feedEnergies initialCapture (List.replicate 11 (-4))).energyHistory.length = 11 ∧
    tenthPercentile (feedEnergies initialCapture (List.replicate 11 (-4))).energyHistory = -4 ∧
    ((-6 : ℚ) ≠ -4) := by
  decide

theorem insertSorted_replicate (e : ℚ) (m : ℕ) :
    insertSorted e (List.replicate m e) = List.replicate (m + 1) e := by
  cases m with
  | zero => rfl
  | succ k =>
    rw [List.replicate_succ, insertSorted, if_pos le_rfl, List.replicate_succ,
      List.replicate_succ]

theorem sortAsc_replicate (e : ℚ) (m : ℕ) :
    sortAsc (List.replicate m e) = List.replicate m e := by
  induction m with
  | zero => rfl
  | succ k ih =>
    rw [List.replicate_succ, sortAsc, List.foldr_cons]
    rw [show List.foldr insertSorted [] (List.replicate k e) = sortAsc (List.replicate k e) from rfl]
    rw [ih, insertSorted_replicate, List.replicate_succ]

theorem getD_replicate_of_lt (e : ℚ) (d : ℚ) : ∀ (m i : ℕ), i < m →
    (List.replicate m e).getD i d = e := by
  intro m
  induction m with
  | zero => intro i hi; omega
  | succ k ih =>
    intro i hi
    cases i with
    | zero => rw [List.replicate_succ]; rfl
    | succ j =>
      rw [List.replicate_succ]
      exact ih j (by omega)

theorem tenthPercentile_replicate (e : ℚ) (m : ℕ) (hm : 0 < m) :
    tenthPercentile (List.replicate m e) = e := by
  rw [tenthPercentile]
  simp only [sortAsc_replicate, List.length_replicate]
  exact getD_replicate_of_lt e 0 m (m / 10) (Nat.div_lt_self hm (by norm_num))

theorem feedEnergies_append (st : CaptureState) (l₁ l₂ : List ℚ) :
    feedEnergies st (l₁ ++ l₂) = feedEnergies (feedEnergies st l₁) l₂ := by
  rw [feedEnergies, feedEnergies, feedEnergies, List.foldl_append]

theorem feed_replicate_hist (e : ℚ) : ∀ k : ℕ,
    (feedEnergies initialCapture (List.replicate k e)).energyHistory =
      List.replicate (min k 20) e ∧
    (feedEnergies initialCapture (List.replicate k e)).energyHistorySize = 20 := by
  intro k
  induction k with
  | zero => exact ⟨rfl, rfl⟩
  | succ k ih =>
    rw [List.replicate_succ', feedEnergies_append]
    obtain ⟨ih1, ih2⟩ := ih
    set s := feedEnergies initialCapture (List.replicate k e) with hs
    have hfeed : feedEnergies s [e] = (performVAD s e).1 := rfl
    rw [hfeed]
    constructor
    · rw [performVAD_energyHistory, pushEvict, ih1, ih2]
      rw [← List.replicate_succ' (min k 20) e]
      simp only [List.length_replicate]
      rcases le_or_lt 20 k with h20 | h20
      · rw [if_pos (by omega)]
        rw [show min k 20 = 20 from by omega, show min (k + 1) 20 = 20 from by omega]
        rw [List.replicate_succ]
        rfl
      · rw [if_neg (by omega)]
        rw [show min k 20 = k from by omega, show min (k + 1) 20 = k + 1 from by omega]
    · rw [performVAD_energyHistorySize, ih2]

/-- C6 amended: the background noise estimate is recomputed only when the
pre-push history length exceeds 10 frames, so after feeding a constant-energy
stream of at least 12 frames (rather than more than 10) the estimate equals
the 10th percentile of the history, which is the fed constant. -/
theorem c6_background_noise_tenth_percentile :
    (∀ (e : ℚ) (n : ℕ), 12 ≤ n →
      (feedEnergies initialCapture (List.replicate n e)).backgroundNoise = e) ∧
    (∀ (st : CaptureState) (e : ℚ), st.energyHistory.length ≤ 10 →
      (performVAD st e).1.backgroundNoise = st.backgroundNoise) := by
  constructor
  · intro e n hn
    obtain ⟨j, rfl⟩ : ∃ j, n = j + 1 := ⟨n - 1, by omega⟩
    rw [List.replicate_succ', feedEnergies_append]
    obtain ⟨h1, _⟩ := feed_replicate_hist e j
    have hfeed : feedEnergies (feedEnergies initialCapture (List.replicate j e)) [e] =
        (performVAD (feedEnergies initialCapture (List.replicate j e)) e).1 := rfl
    rw [hfeed, performVAD_backgroundNoise, updatedNoise, h1]
    rw [if_pos (by simp only [List.length_replicate]; omega)]
    exact tenthPercentile_replicate e (min j 20) (by omega)
  · intro st e hlen
    rw [performVAD_backgroundNoise, updatedNoise, if_neg (by omega)]

set_option maxRecDepth 4000 in
unseal Rat.add Rat.mul Rat.sub Rat.inv in
/-- C6 witness: after 12 frames of constant energy -4 the estimate equals -4,
and a state with a short history keeps its estimate unchanged. -/
theorem c6_background_noise_tenth_percentile_witness :
    (12 : ℕ) ≤ 12 ∧
    (feedEnergies initialCapture (List.replicate 12 (-4))).backgroundNoise = -4 ∧
    c10DemoState.energyHistory.length ≤ 10 ∧
    (performVAD c10DemoState 7).1.backgroundNoise = c10DemoState.backgroundNoise :=
  ⟨le_refl 12, c6_background_noise_tenth_percentile.1 (-4) 12 (le_refl 12),
    by decide, c6_background_noise_tenth_percentile.2 c10DemoState 7 (by decide)⟩

/-! Lemmas for C2. -/

theorem sendBufferedAudioE_ok (st : CaptureState) :
    sendBufferedAudioE okCallbacks st = Except.ok (sendBufferedAudio st) := by
  by_cases h : st.audioBuffer = []
  · simp [sendBufferedAudioE, sendBufferedAudio, okCallbacks, h]
  · simp only [sendBufferedAudioE, sendBufferedAudio, okCallbacks, if_neg h]
    rfl

/-- With never-throwing callbacks the exception-aware embedding agrees with
the pure one, so it stubs nothing: it is processAudioChunk with the callback
invocations made explicit. -/
theorem onaudioprocessE_ok (st : CaptureState) (fr : Frame) (h : st.isRecording = true) :
    onaudioprocessE okCallbacks st fr =
      Except.ok ((processAudioChunk st fr).1, (processAudioChunk st fr).2.segment) := by
  simp only [onaudioprocessE, h, Bool.not_true, Bool.false_eq_true, if_false,
    processAudioChunkE, processAudioChunk]
  split_ifs <;> first
    | rfl
    | (rw [sendBufferedAudioE_ok]; rfl)

/-- C2 counterexample: with a throwing onVAD listener, the error propagates
out of the onaudioprocess handler as an Except.error: the per-frame path has
no catch, reports nothing through onError (which it never invokes), and
performs no teardown. -/
theorem c2_counterexample :
    onaudioprocessE throwingVAD startedCapture fSp = Except.error "boom" := rfl

/-- C2 amended: any exception raised inside the per-frame processing path
propagates uncaught out of the audio callback; the handler contains no
try/catch, never invokes onError, and does not force the session toward
teardown. -/
theorem c2_exception_propagates (cb : CaptureCallbacks) (st : CaptureState) (fr : Frame)
    (msg : String)
    (hrec : st.isRecording = true)
    (hlvl : cb.onAudioLevel (calculateAudioLevel fr.samples) = Except.error msg) :
    onaudioprocessE cb st fr = Except.error msg := by
  simp only [onaudioprocessE, hrec, Bool.not_true, Bool.false_eq_true, if_false,
    processAudioChunkE]
  rw [hlvl]
  rfl

/-- C2 witness: a throwing onAudioLevel listener at a recording state. -/
theorem c2_exception_propagates_witness :
    startedCapture.isRecording = true ∧
    onaudioprocessE throwingLevel startedCapture fSil = Except.error "level boom" :=
  ⟨rfl, c2_exception_propagates throwingLevel startedCapture fSil "level boom" rfl rfl⟩

end ConciseNotes
